import Mathlib

/-!
Verification of the resumable concurrent enrichment engine of `gif-picker`
(`src/describe_gifs.py`, the TGIF-specific engine, and `src/describe_sources.py`,
the manifest-driven engine).  The Python functions relevant to the claims are
embedded shallowly: pure computations become Lean functions, the effectful
parts (HTTP fetch, the inference service, file I/O) are passed in as explicit
oracle arguments, and the lock-serialized aggregation loop becomes a fold over
a list of per-job micro-operations.
-/

namespace GifPicker

/-! ### Strings and bytes -/

/-- Substring occurrence on character lists: `containsSub pat s` holds when
`pat` occurs contiguously inside `s` (the Python `pat in s` test). -/
def containsSub (pat : List Char) : List Char → Bool
  | [] => pat.isEmpty
  | c :: rest => pat.isPrefixOf (c :: rest) || containsSub pat rest

/-- Python's `pat in s` on strings. -/
def strContains (s pat : String) : Bool :=
  containsSub pat.data s.data

/-- The moderation-tombstone location tested by `download_gif`
(`describe_gifs.py` line 94). -/
def tombstoneMarker : String := "assets.tumblr.com/images/media_violation/"

/-- Raw media bytes, abstracted. -/
abbrev Bytes := List Nat

/-! ### Media Locator (`download_gif`, `describe_gifs.py` lines 88-100) -/

/-- What a fetch of the remote `source_ref` can do: deliver a body together
with the URL the request finally resolved to (`resp.url`), or raise
(timeout, HTTP error, transport error — the `except Exception` arm). -/
inductive FetchResult where
  | ok (body : Bytes) (finalUrl : String)
  | error (msg : String)
deriving DecidableEq

/-- `download_gif` (`describe_gifs.py` lines 88-100): on a successful fetch
whose final URL contains the tombstone marker it returns `None`; on any raised
exception it also returns `None`; otherwise the body.  Both failure paths
return the same `None`. -/
def download_gif (fetch : FetchResult) : Option Bytes :=
  match fetch with
  | .error _ => none
  | .ok body finalUrl =>
      if strContains finalUrl tombstoneMarker then none else some body

/-! ### Items, records and job outcomes -/

/-- One TSV row of the TGIF engine (`load_gifs`): identity is the URL. -/
structure Gif where
  url : String
  original_description : String
deriving DecidableEq

/-- One serialized output line: its identity field (`"url"` in the TGIF
engine, `"id"` in the manifest engine) plus the remaining payload. -/
structure Rec where
  id : String
  payload : String
deriving DecidableEq

/-- Value returned by `process_gif` (`describe_gifs.py` lines 177-190):
a dict on success, the `REMOVED` sentinel, or `None` on failure. -/
inductive ProcessResult where
  | success (r : Rec)
  | removed
  | failed
deriving DecidableEq

/-- `process_gif` (`describe_gifs.py` lines 177-190).  `describe` stands for
`describe_gif_from_data` applied to the downloaded bytes; the record built on
success carries the gif's URL as its identity. -/
def process_gif (fetch : FetchResult) (describe : Bytes → Option String)
    (g : Gif) : ProcessResult :=
  match download_gif fetch with
  | none => .removed
  | some data =>
      match describe data with
      | some d => .success ⟨g.url, d⟩
      | none => .failed

/-! ### Inference client (`describe_gif_from_data`, `describe_gifs.py`
lines 141-170, and the inference part of `describe_item`,
`describe_sources.py` lines 212-241) -/

/-- What one `generate_content` call followed by `json.loads` can do:
parse to a structured object, yield unparsable text (raising
`json.JSONDecodeError`), or raise some other exception. -/
inductive AttemptResult where
  | parsed (d : String)
  | unparsable (raw : String)
  | apiError
deriving DecidableEq

/-- The retry loop of `describe_gif_from_data` (lines 152-167): `fuel`
counts the remaining attempts, `i` the index of the next attempt.  A parse
failure with attempts left recurses and logs; a parse failure on the last
attempt logs a 300-character bounded prefix of the raw response and falls
through to `return None`; any non-parse exception aborts with `None`
(the outer `except` arm). -/
def attemptFrom (oracle : Nat → AttemptResult) : Nat → Nat → Option String × List String
  | _, 0 => (none, [])
  | i, fuel + 1 =>
    match oracle i with
    | .parsed d => (some d, [])
    | .apiError => (none, ["API error"])
    | .unparsable raw =>
      if fuel = 0 then
        (none, ["JSON parse error (giving up)", "Raw response: " ++ raw.take 300])
      else
        ((attemptFrom oracle (i + 1) fuel).1,
          "JSON parse error (retrying)" :: (attemptFrom oracle (i + 1) fuel).2)

/-- `describe_gif_from_data` (`describe_gifs.py` lines 141-170) with its
`retries` parameter (default 1): `1 + retries` attempts in total.  Returns
the parsed object (if any) and the diagnostic log lines. -/
def describe_gif_from_data (oracle : Nat → AttemptResult) (retries : Nat) :
    Option String × List String :=
  attemptFrom oracle 0 (1 + retries)

/-- `describe_item` (`describe_sources.py` lines 199-241): missing file and
frame-extraction errors yield `None`; then exactly one `generate_content`
call is made — a `json.JSONDecodeError` or any other exception yields `None`
immediately, with no retry. -/
def describe_item (fileExists : Bool) (frames : Option (List Bytes))
    (oracle : Nat → AttemptResult) : Option String :=
  if fileExists = false then none
  else
    match frames with
    | none => none
    | some _ =>
      match oracle 0 with
      | .parsed d => some d
      | .unparsable _ => none
      | .apiError => none

/-! ### Frame Sampler: discrete sources (`extract_frames`,
`describe_gifs.py` lines 103-129; `extract_frames_gif`,
`describe_sources.py` lines 100-125) -/

/-- Python's `round` on an exact rational: round half to even (the fractional
part below one half rounds down, above one half rounds up, exactly one half
goes to the even neighbour). -/
def pythonRound (q : ℚ) : ℤ :=
  if q < ⌊q⌋ + 1/2 then ⌊q⌋
  else if (⌊q⌋ : ℚ) + 1/2 < q then ⌊q⌋ + 1
  else if ⌊q⌋ % 2 = 0 then ⌊q⌋ else ⌊q⌋ + 1

/-- The comprehension body `round(i * (n_frames - 1) / (num_frames - 1))`. -/
def sampleIdx (F K i : Nat) : ℤ :=
  pythonRound ((i : ℚ) * ((F : ℚ) - 1) / ((K : ℚ) - 1))

/-- The frame-index selection of `extract_frames` / `extract_frames_gif`
(lines 108-112 resp. 106-109): all indices when `F ≤ K`, else
`round(i·(F-1)/(K-1))` for `i = 0..K-1`.  When `K = 1 < F` the Python
expression `i * (n_frames - 1) / (num_frames - 1)` divides by zero and
raises `ZeroDivisionError`, modelled as `none`. -/
def extract_frames_indices (F K : Nat) : Option (List ℤ) :=
  if F ≤ K then some ((List.range F).map Int.ofNat)
  else if K = 1 then none
  else some ((List.range K).map (sampleIdx F K))

/-! ### Frame Sampler: time-based sources (`extract_frames_mp4`,
`describe_sources.py` lines 128-188) -/

/-- The fields of the ffprobe video stream that duration resolution reads:
the `duration` field (absent ↦ `0` via `get("duration", 0)`), `nb_frames`
(`int(get("nb_frames", 0))`) and the parsed `r_frame_rate` fraction
(default `30/1`). -/
structure VideoStream where
  duration : Option ℚ
  nb_frames : ℤ
  r_num : ℤ
  r_den : ℤ
deriving DecidableEq

/-- Duration resolution of `extract_frames_mp4` (lines 148-160): the
`duration` field; if that is `0`, `nb_frames · den / num` when both
`nb_frames` and `num` are positive; if the result is still `≤ 0`, the
nominal fallback `1.0`. -/
def resolveDuration (s : VideoStream) : ℚ :=
  let d0 : ℚ := s.duration.getD 0
  let d1 : ℚ :=
    if d0 = 0 then
      (if 0 < s.nb_frames ∧ 0 < s.r_num
        then ((s.nb_frames * s.r_den : ℤ) : ℚ) / ((s.r_num : ℤ) : ℚ)
        else d0)
    else d0
  if d1 ≤ 0 then 1 else d1

/-- Timestamp selection of `extract_frames_mp4` (lines 162-168): `[0]` when
`num_frames == 1`, else `i · duration / (num_frames - 1)` for
`i = 0..num_frames-1` with the last timestamp clamped to
`min(last, max(0, duration - 0.01))`. -/
def mp4_timestamps (duration : ℚ) (num_frames : Nat) : List ℚ :=
  if num_frames = 1 then [0]
  else
    let ts := (List.range num_frames).map
        (fun i => (i : ℚ) * duration / ((num_frames : ℚ) - 1))
    ts.dropLast ++ (ts.getLast?.map (fun t => min t (max 0 (duration - 1/100)))).toList

/-! ### Startup scans of the existing output sink -/

/-- One line of an existing output file, as seen by `json.loads` plus the
identity lookup: a record carrying an identity, valid JSON without the
identity key, or text `json.loads` rejects. -/
inductive Line where
  | record (id : String)
  | noId
  | badJson
deriving DecidableEq

/-- The resume scan of the TGIF engine (`describe_gifs.py` lines 214-217):
`json.loads(line)` and `data["url"]` are unguarded, so a malformed or
identity-missing line raises and aborts the run. -/
def processed_urls_scan : List Line → Except String (List String)
  | [] => .ok []
  | Line.record i :: rest => (processed_urls_scan rest).map (fun ids => i :: ids)
  | Line.badJson :: _ => .error "JSONDecodeError"
  | Line.noId :: _ => .error "KeyError"

/-- The resume scan of the manifest engine (`describe_sources.py`
lines 260-265): `except (json.JSONDecodeError, KeyError): pass` skips
malformed and identity-missing lines. -/
def existing_ids_scan : List Line → List String
  | [] => []
  | Line.record i :: rest => i :: existing_ids_scan rest
  | Line.noId :: rest => existing_ids_scan rest
  | Line.badJson :: rest => existing_ids_scan rest

/-- The skip-set filter of the TGIF engine (`describe_gifs.py` line 221):
keep the gifs whose URL is not in the skip-set. -/
def to_process (gifs : List Gif) (skip : List String) : List Gif :=
  gifs.filter (fun g => g.url ∉ skip)

/-- The scheduling prefix of `main` in the TGIF engine (lines 212-221):
with resume enabled and an existing output file, the scan runs to completion
(or raises) before the skip-set filter is applied; otherwise the skip-set is
empty. -/
def gifs_schedule (gifs : List Gif) (resume : Bool) (existing : Option (List Line)) :
    Except String (List Gif) :=
  match resume, existing with
  | true, some lines => (processed_urls_scan lines).map (fun ids => to_process gifs ids)
  | _, _ => .ok (to_process gifs [])

/-! ### Manifest engine scheduling (`process_source`,
`describe_sources.py` lines 244-283) -/

/-- One manifest item, restricted to the fields the engine reads. -/
structure SItem where
  id : String
  downloaded : Bool
  described : Bool
deriving DecidableEq

/-- `items_needing_description` (`describe_sources.py` lines 92-97). -/
def items_needing_description (items : List SItem) (force : Bool) : List SItem :=
  items.filter (fun i => i.downloaded && (force || !i.described))

/-- The `if limit: to_process = to_process[:limit]` step (line 248-249):
`limit = 0` is falsy and means no cap. -/
def applyLimit (l : List SItem) (limit : Nat) : List SItem :=
  if limit = 0 then l else l.take limit

/-- The scheduled items of `process_source` (lines 247-266): needing
description, then capped by the limit, then filtered against the
already-described identities — in that order. -/
def scheduled_items (items : List SItem) (force : Bool) (limit : Nat)
    (existing : List String) : List SItem :=
  (applyLimit (items_needing_description items force) limit).filter
    (fun i => i.id ∉ existing)

/-- `existing_ids` of `process_source` (lines 258-265): populated only when
the descriptions file exists and force mode is off. -/
def existing_ids (file : Option (List Line)) (force : Bool) : List String :=
  match file with
  | some lines => if force then [] else existing_ids_scan lines
  | none => []

/-- File-open mode of the output sink. -/
inductive OMode where
  | append
  | truncate
deriving DecidableEq

/-- `output_mode` of `process_source` (lines 279-281):
`"a" if existing_ids else "w"`, overridden to `"w"` by force mode. -/
def output_mode (existing : List String) (force : Bool) : OMode :=
  if force then .truncate
  else if existing.isEmpty then .truncate else .append

/-! ### The aggregation critical section

Workers return their outcome by value (`process_gif` / `describe_item`);
whichever completion the main loop consumes next enters the `with lock:`
block and performs, in source order, the write, the flush, (in the manifest
engine) the `item["described"] = True` update, and the counter increment.
Each such block is a short list of micro-operations on the shared run
state. -/

/-- One primitive mutation of the shared run state. -/
inductive MicroOp where
  | write (r : Rec)
  | flush
  | markDescribed (id : String)
  | incSuccess
  | incFailed
  | incRemoved
deriving DecidableEq

/-- The shared run state: the output handle's unflushed buffer, the durably
flushed records, the three counters, and the identities whose manifest
`described` flag has been set. -/
structure IOState where
  buffered : List Rec
  flushed : List Rec
  success : Nat
  failed : Nat
  removed : Nat
  described : List String
deriving DecidableEq

/-- The state at the start of a run. -/
def initState : IOState :=
  { buffered := [], flushed := [], success := 0, failed := 0, removed := 0,
    described := [] }

/-- Effect of one micro-operation. -/
def applyOp (st : IOState) : MicroOp → IOState
  | .write r => { st with buffered := st.buffered ++ [r] }
  | .flush => { st with flushed := st.flushed ++ st.buffered, buffered := [] }
  | .markDescribed i => { st with described := st.described ++ [i] }
  | .incSuccess => { st with success := st.success + 1 }
  | .incFailed => { st with failed := st.failed + 1 }
  | .incRemoved => { st with removed := st.removed + 1 }

/-- The critical section of the TGIF engine (`describe_gifs.py`
lines 245-253), in source order per outcome. -/
def opsForGifs : ProcessResult → List MicroOp
  | .success r => [.write r, .flush, .incSuccess]
  | .removed => [.incRemoved]
  | .failed => [.incFailed]

/-- Value returned by `describe_item` as consumed by the manifest engine's
loop: a record or `None`. -/
inductive SResult where
  | success (r : Rec)
  | failure
deriving DecidableEq

/-- The critical section of the manifest engine (`describe_sources.py`
lines 293-300), in source order per outcome. -/
def opsForSources : SResult → List MicroOp
  | .success r => [.write r, .flush, .markDescribed r.id, .incSuccess]
  | .failure => [.incFailed]

/-- One full pass through the TGIF critical section. -/
def stepGifs (st : IOState) (r : ProcessResult) : IOState :=
  (opsForGifs r).foldl applyOp st

/-- One full pass through the manifest critical section. -/
def stepSources (st : IOState) (r : SResult) : IOState :=
  (opsForSources r).foldl applyOp st

/-- The whole aggregation loop of the TGIF engine over the job outcomes in
completion order. -/
def runAggGifs (order : List ProcessResult) : IOState :=
  order.foldl stepGifs initState

/-- The whole aggregation loop of the manifest engine over the job outcomes
in completion order. -/
def runAggSources (order : List SResult) : IOState :=
  order.foldl stepSources initState

/-- Concatenation of the per-job critical sections, as a flat
micro-operation trace. -/
def fullTrace (sections : List (List MicroOp)) : List MicroOp :=
  sections.foldr (fun sec acc => sec ++ acc) []

/-- All states the shared run state passes through while executing a trace,
including the initial and final state. -/
def statesOf (st : IOState) : List MicroOp → List IOState
  | [] => [st]
  | op :: ops => st :: statesOf (applyOp st op) ops

/-- Boolean classifiers of a TGIF job outcome. -/
def isSuccess : ProcessResult → Bool
  | .success _ => true
  | _ => false

def isRemoved : ProcessResult → Bool
  | .removed => true
  | _ => false

def isFailed : ProcessResult → Bool
  | .failed => true
  | _ => false

/-- The record a TGIF job outcome contributes to the sink, if any. -/
def recOf : ProcessResult → Option Rec
  | .success r => some r
  | _ => none

/-- The record a manifest job outcome contributes to the sink, if any. -/
def recOfS : SResult → Option Rec
  | .success r => some r
  | .failure => none

/-- A whole TGIF job (`process_gif` composed over the fetch and inference
oracles of an item). -/
def gifOutcome (fetch : Gif → FetchResult) (describe : Gif → Bytes → Option String)
    (g : Gif) : ProcessResult :=
  process_gif (fetch g) (describe g) g

/-- A full TGIF run: filter by the skip-set, run every job, aggregate in
(canonical) completion order. -/
def runGifs (gifs : List Gif) (skip : List String) (fetch : Gif → FetchResult)
    (describe : Gif → Bytes → Option String) : IOState :=
  runAggGifs ((to_process gifs skip).map (gifOutcome fetch describe))

/-- Boolean classifier of a manifest job outcome. -/
def isSSuccess : SResult → Bool
  | .success _ => true
  | .failure => false

/-- A critical section is safe when, started from a state whose buffer is
empty and whose success counter equals the flushed record count, every
intermediate state keeps the counter at or below the flushed count and the
final state restores the invariant. -/
def SafeSec (sec : List MicroOp) : Prop :=
  ∀ st : IOState, st.buffered = [] → st.success = st.flushed.length →
    (∀ s ∈ statesOf st sec, s.success ≤ s.flushed.length) ∧
    (sec.foldl applyOp st).buffered = [] ∧
    (sec.foldl applyOp st).success = (sec.foldl applyOp st).flushed.length

/-! ## Helper lemmas -/

theorem pythonRound_le (q : ℚ) : (pythonRound q : ℚ) ≤ q + 1/2 := by
  have h1 : (⌊q⌋ : ℚ) ≤ q := Int.floor_le q
  have h2 : q < ⌊q⌋ + 1 := Int.lt_floor_add_one q
  unfold pythonRound
  split_ifs with ha hb hc <;> push_cast <;> linarith

theorem le_pythonRound (q : ℚ) : q - 1/2 ≤ (pythonRound q : ℚ) := by
  have h1 : (⌊q⌋ : ℚ) ≤ q := Int.floor_le q
  have h2 : q < ⌊q⌋ + 1 := Int.lt_floor_add_one q
  unfold pythonRound
  split_ifs with ha hb hc <;> push_cast <;> linarith

theorem pythonRound_intCast (n : ℤ) : pythonRound (n : ℚ) = n := by
  unfold pythonRound
  rw [Int.floor_intCast]
  norm_num

theorem pythonRound_natCast (n : ℕ) : pythonRound (n : ℚ) = n := by
  have h := pythonRound_intCast (n : ℤ)
  push_cast at h
  exact h

/-- Consecutive sampled indices are non-decreasing when the inter-frame step
`(F-1)/(K-1)` is at least one, i.e. when `2 ≤ K ≤ F`. -/
theorem sampled_step_mono {F K : ℕ} (hK : 2 ≤ K) (hKF : K ≤ F) :
    Monotone (sampleIdx F K) := by
  have hK2 : (2 : ℚ) ≤ (K : ℚ) := by exact_mod_cast hK
  have hKF2 : (K : ℚ) ≤ (F : ℚ) := by exact_mod_cast hKF
  have hK0 : (0 : ℚ) < (K : ℚ) - 1 := by linarith
  apply monotone_nat_of_le_succ
  intro n
  have hd : 1 ≤ ((F : ℚ) - 1) / ((K : ℚ) - 1) := (one_le_div hK0).2 (by linarith)
  have hx : ((n + 1 : ℕ) : ℚ) * ((F : ℚ) - 1) / ((K : ℚ) - 1)
      = (n : ℚ) * ((F : ℚ) - 1) / ((K : ℚ) - 1) + ((F : ℚ) - 1) / ((K : ℚ) - 1) := by
    push_cast
    ring
  have b1 := pythonRound_le ((n : ℚ) * ((F : ℚ) - 1) / ((K : ℚ) - 1))
  have b2 := le_pythonRound (((n + 1 : ℕ) : ℚ) * ((F : ℚ) - 1) / ((K : ℚ) - 1))
  rw [hx] at b2
  have hle : (sampleIdx F K n : ℚ) ≤ (sampleIdx F K (n + 1) : ℚ) := by
    unfold sampleIdx
    rw [hx]
    linarith
  exact_mod_cast hle

theorem sampleIdx_zero {F K : ℕ} : sampleIdx F K 0 = 0 := by
  unfold sampleIdx
  have h := pythonRound_intCast 0
  norm_num at h ⊢
  exact h

theorem sampleIdx_last {F K : ℕ} (hK : 2 ≤ K) :
    sampleIdx F K (K - 1) = (F : ℤ) - 1 := by
  have hK2 : (2 : ℚ) ≤ (K : ℚ) := by exact_mod_cast hK
  have hKne : ((K : ℚ) - 1) ≠ 0 := by intro h; nlinarith
  unfold sampleIdx
  have hcast : ((K - 1 : ℕ) : ℚ) = (K : ℚ) - 1 := by
    rw [Nat.cast_sub (by omega : 1 ≤ K)]
    norm_num
  rw [hcast, mul_div_cancel_left₀ _ hKne]
  have hc : ((F : ℚ) - 1) = (((F : ℤ) - 1 : ℤ) : ℚ) := by push_cast; ring
  rw [hc]
  exact pythonRound_intCast _

/-- The formula list of sampled indices, with its four properties, for
`2 ≤ K ≤ F`. -/
theorem sampled_formula_props {F K : ℕ} (hK : 2 ≤ K) (hKF : K ≤ F) :
    ((List.range K).map (sampleIdx F K)).length = K
    ∧ ((List.range K).map (sampleIdx F K)).Sorted (· ≤ ·)
    ∧ ((List.range K).map (sampleIdx F K)).get? 0 = some 0
    ∧ ((List.range K).map (sampleIdx F K)).get? (K - 1) = some ((F : ℤ) - 1) := by
  refine ⟨by rw [List.length_map, List.length_range], ?_, ?_, ?_⟩
  · exact List.Pairwise.map (sampleIdx F K)
      (fun a b hab => sampled_step_mono hK hKF hab.le) (List.pairwise_lt_range K)
  · rw [List.get?_map, List.get?_range (by omega : 0 < K)]
    simp [sampleIdx_zero]
  · rw [List.get?_map, List.get?_range (by omega : K - 1 < K)]
    simp [sampleIdx_last hK]

/-- The whole TGIF aggregation fold, field by field, from any state with an
empty write buffer. -/
theorem foldl_stepGifs_spec (l : List ProcessResult) (st : IOState)
    (hb : st.buffered = []) :
    l.foldl stepGifs st =
      { buffered := [], flushed := st.flushed ++ l.filterMap recOf,
        success := st.success + l.countP isSuccess,
        failed := st.failed + l.countP isFailed,
        removed := st.removed + l.countP isRemoved,
        described := st.described } := by
  induction l generalizing st with
  | nil =>
    obtain ⟨b, fl, s, f, rm, d⟩ := st
    simp only at hb
    subst hb
    simp
  | cons r t ih =>
    obtain ⟨b, fl, s, f, rm, d⟩ := st
    simp only at hb
    subst hb
    rw [List.foldl_cons]
    cases r with
    | success rec =>
      rw [show stepGifs ⟨[], fl, s, f, rm, d⟩ (.success rec)
            = ⟨[], fl ++ [rec], s + 1, f, rm, d⟩ from rfl]
      rw [ih _ rfl]
      simp [List.filterMap_cons, List.countP_cons, recOf, isSuccess, isFailed,
        isRemoved, List.append_assoc]
      omega
    | removed =>
      rw [show stepGifs ⟨[], fl, s, f, rm, d⟩ .removed
            = ⟨[], fl, s, f, rm + 1, d⟩ from rfl]
      rw [ih _ rfl]
      simp [List.filterMap_cons, List.countP_cons, recOf, isSuccess, isFailed,
        isRemoved]
      omega
    | failed =>
      rw [show stepGifs ⟨[], fl, s, f, rm, d⟩ .failed
            = ⟨[], fl, s, f + 1, rm, d⟩ from rfl]
      rw [ih _ rfl]
      simp [List.filterMap_cons, List.countP_cons, recOf, isSuccess, isFailed,
        isRemoved]
      omega

/-- The whole manifest aggregation fold, field by field, from any state with
an empty write buffer. -/
theorem foldl_stepSources_spec (l : List SResult) (st : IOState)
    (hb : st.buffered = []) :
    l.foldl stepSources st =
      { buffered := [], flushed := st.flushed ++ l.filterMap recOfS,
        success := st.success + l.countP isSSuccess,
        failed := st.failed + l.countP (fun r => !isSSuccess r),
        removed := st.removed,
        described := st.described ++ (l.filterMap recOfS).map Rec.id } := by
  induction l generalizing st with
  | nil =>
    obtain ⟨b, fl, s, f, rm, d⟩ := st
    simp only at hb
    subst hb
    simp
  | cons r t ih =>
    obtain ⟨b, fl, s, f, rm, d⟩ := st
    simp only at hb
    subst hb
    rw [List.foldl_cons]
    cases r with
    | success rec =>
      rw [show stepSources ⟨[], fl, s, f, rm, d⟩ (.success rec)
            = ⟨[], fl ++ [rec], s + 1, f, rm, d ++ [rec.id]⟩ from rfl]
      rw [ih _ rfl]
      simp [List.filterMap_cons, List.countP_cons, recOfS, isSSuccess,
        List.append_assoc]
      omega
    | failure =>
      rw [show stepSources ⟨[], fl, s, f, rm, d⟩ .failure
            = ⟨[], fl, s, f + 1, rm, d⟩ from rfl]
      rw [ih _ rfl]
      simp [List.filterMap_cons, List.countP_cons, recOfS, isSSuccess]
      omega

/-- Splitting a state trace at a list concatenation. -/
theorem mem_statesOf_append {s : IOState} (st : IOState) (l1 l2 : List MicroOp)
    (h : s ∈ statesOf st (l1 ++ l2)) :
    s ∈ statesOf st l1 ∨ s ∈ statesOf (l1.foldl applyOp st) l2 := by
  induction l1 generalizing st with
  | nil => exact Or.inr h
  | cons op t ih =>
    rw [List.cons_append] at h
    rcases List.mem_cons.1 h with h1 | h2
    · exact Or.inl (h1 ▸ List.mem_cons_self _ _)
    · rcases ih (applyOp st op) h2 with h3 | h4
      · exact Or.inl (List.mem_cons_of_mem _ h3)
      · exact Or.inr h4

/-- Concatenating safe critical sections keeps the success counter at or
below the flushed record count at every intermediate state. -/
theorem safe_fullTrace (sections : List (List MicroOp))
    (hsafe : ∀ sec ∈ sections, SafeSec sec) :
    ∀ st : IOState, st.buffered = [] → st.success = st.flushed.length →
    ∀ s ∈ statesOf st (fullTrace sections), s.success ≤ s.flushed.length := by
  induction sections with
  | nil =>
    intro st hb hs s hmem
    rcases List.mem_singleton.1 hmem with rfl
    exact Nat.le_of_eq hs
  | cons sec secs ih =>
    intro st hb hs s hmem
    rcases mem_statesOf_append st sec (fullTrace secs) hmem with h1 | h2
    · exact ((hsafe sec (List.mem_cons_self _ _)) st hb hs).1 s h1
    · obtain ⟨-, hb2, hs2⟩ := (hsafe sec (List.mem_cons_self _ _)) st hb hs
      exact ih (fun x hx => hsafe x (List.mem_cons_of_mem _ hx)) _ hb2 hs2 s h2

/-- The TGIF engine's critical section is safe for every job outcome. -/
theorem safe_opsForGifs (r : ProcessResult) : SafeSec (opsForGifs r) := by
  intro st hb hs
  obtain ⟨b, fl, s, f, rm, d⟩ := st
  simp only at hb hs
  subst hb
  subst hs
  cases r with
  | success rec =>
    refine ⟨?_, rfl, by simp [opsForGifs, applyOp]⟩
    intro x hmem
    simp only [opsForGifs, statesOf, applyOp, List.mem_cons,
      List.not_mem_nil, or_false] at hmem
    rcases hmem with rfl | rfl | rfl | rfl <;> simp
  | removed =>
    refine ⟨?_, rfl, by simp [opsForGifs, applyOp]⟩
    intro x hmem
    simp only [opsForGifs, statesOf, applyOp, List.mem_cons,
      List.not_mem_nil, or_false] at hmem
    rcases hmem with rfl | rfl <;> simp
  | failed =>
    refine ⟨?_, rfl, by simp [opsForGifs, applyOp]⟩
    intro x hmem
    simp only [opsForGifs, statesOf, applyOp, List.mem_cons,
      List.not_mem_nil, or_false] at hmem
    rcases hmem with rfl | rfl <;> simp

/-- The manifest engine's critical section is safe for every job outcome. -/
theorem safe_opsForSources (r : SResult) : SafeSec (opsForSources r) := by
  intro st hb hs
  obtain ⟨b, fl, s, f, rm, d⟩ := st
  simp only at hb hs
  subst hb
  subst hs
  cases r with
  | success rec =>
    refine ⟨?_, rfl, by simp [opsForSources, applyOp]⟩
    intro x hmem
    simp only [opsForSources, statesOf, applyOp, List.mem_cons,
      List.not_mem_nil, or_false] at hmem
    rcases hmem with rfl | rfl | rfl | rfl | rfl <;> simp
  | failure =>
    refine ⟨?_, rfl, by simp [opsForSources, applyOp]⟩
    intro x hmem
    simp only [opsForSources, statesOf, applyOp, List.mem_cons,
      List.not_mem_nil, or_false] at hmem
    rcases hmem with rfl | rfl <;> simp

/-- The manifest engine's scan recovers exactly the identities of the
well-formed record lines. -/
theorem mem_existing_ids_scan {lines : List Line} {i : String} :
    i ∈ existing_ids_scan lines ↔ Line.record i ∈ lines := by
  induction lines with
  | nil => simp [existing_ids_scan]
  | cons l t ih => cases l <;> simp [existing_ids_scan, ih]

/-- The TGIF engine's scan raises as soon as the file holds a line
`json.loads` rejects. -/
theorem processed_urls_scan_error {lines : List Line}
    (h : Line.badJson ∈ lines) : ∃ e, processed_urls_scan lines = .error e := by
  induction lines with
  | nil => simp at h
  | cons l t ih =>
    cases l with
    | record j =>
      have ht : Line.badJson ∈ t := by simpa using h
      obtain ⟨e, he⟩ := ih ht
      exact ⟨e, by simp [processed_urls_scan, he, Except.map]⟩
    | badJson => exact ⟨"JSONDecodeError", rfl⟩
    | noId => exact ⟨"KeyError", rfl⟩

/-- A successful TGIF job's output record carries the gif's URL as its
identity. -/
theorem gifOutcome_id {fetch : Gif → FetchResult}
    {describe : Gif → Bytes → Option String} {g : Gif} {r : Rec}
    (h : recOf (gifOutcome fetch describe g) = some r) : r.id = g.url := by
  unfold gifOutcome process_gif at h
  split at h
  · simp [recOf] at h
  · split at h
    · simp only [recOf, Option.some.injEq] at h
      rw [← h]
    · simp [recOf] at h

/-- The identities written by a batch of TGIF jobs, in order, form a
sublist of the batch's item URLs. -/
theorem sink_ids_sublist (jobs : List Gif) (fetch : Gif → FetchResult)
    (describe : Gif → Bytes → Option String) :
    (((jobs.map (gifOutcome fetch describe)).filterMap recOf).map Rec.id).Sublist
      (jobs.map Gif.url) := by
  induction jobs with
  | nil => simp
  | cons g t ih =>
    rw [List.map_cons, List.map_cons, List.filterMap_cons]
    cases h : recOf (gifOutcome fetch describe g) with
    | none => exact List.Sublist.cons _ ih
    | some r =>
      rw [List.map_cons, gifOutcome_id h]
      exact List.Sublist.cons₂ _ ih

/-- Membership in the skip-set filter. -/
theorem mem_to_process {gifs : List Gif} {skip : List String} {g : Gif} :
    g ∈ to_process gifs skip ↔ g ∈ gifs ∧ g.url ∉ skip := by
  unfold to_process
  rw [List.mem_filter]
  simp

/-- Every TGIF job outcome bumps exactly one of the three counters. -/
theorem countP_parts (l : List ProcessResult) :
    l.countP isSuccess + l.countP isFailed + l.countP isRemoved = l.length := by
  induction l with
  | nil => simp
  | cons r t ih =>
    cases r <;>
      simp [List.countP_cons, isSuccess, isFailed, isRemoved] <;> omega

/-- Every manifest job outcome bumps exactly one of the two counters. -/
theorem countP_sparts (l : List SResult) :
    l.countP isSSuccess + l.countP (fun r => !isSSuccess r) = l.length := by
  induction l with
  | nil => simp
  | cons r t ih =>
    rw [List.countP_cons, List.countP_cons, List.length_cons]
    cases r with
    | success rec =>
      have h1 : isSSuccess (SResult.success rec) = true := rfl
      simp only [h1, Bool.not_true]
      simp
      omega
    | failure =>
      have h1 : isSSuccess SResult.failure = false := rfl
      simp only [h1, Bool.not_false]
      simp
      omega

/-- Successful TGIF outcomes are exactly the outcomes that contribute a
record. -/
theorem countP_isSuccess_eq (l : List ProcessResult) :
    l.countP isSuccess = (l.filterMap recOf).length := by
  induction l with
  | nil => simp
  | cons r t ih =>
    cases r <;> simp [List.countP_cons, List.filterMap_cons, isSuccess, recOf, ih]

/-- Successful manifest outcomes are exactly the outcomes that contribute a
record. -/
theorem countP_isSSuccess_eq (l : List SResult) :
    l.countP isSSuccess = (l.filterMap recOfS).length := by
  induction l with
  | nil => simp
  | cons r t ih =>
    cases r <;> simp [List.countP_cons, List.filterMap_cons, isSSuccess, recOfS, ih]

/-- The flushed sink of a full TGIF run, explicitly. -/
theorem runGifs_flushed (gifs : List Gif) (skip : List String)
    (fetch : Gif → FetchResult) (describe : Gif → Bytes → Option String) :
    (runGifs gifs skip fetch describe).flushed
      = ((to_process gifs skip).map (gifOutcome fetch describe)).filterMap recOf := by
  unfold runGifs runAggGifs
  rw [foldl_stepGifs_spec _ _ rfl]
  rfl

/-- Every record flushed by a TGIF run carries the URL of one of the
scheduled (non-skipped) items. -/
theorem runGifs_flushed_ids {gifs : List Gif} {skip : List String}
    {fetch : Gif → FetchResult} {describe : Gif → Bytes → Option String} {r : Rec}
    (hmem : r ∈ (runGifs gifs skip fetch describe).flushed) :
    r.id ∈ (to_process gifs skip).map Gif.url := by
  rw [runGifs_flushed] at hmem
  rw [List.mem_filterMap] at hmem
  obtain ⟨pr, hpr, hrec⟩ := hmem
  rw [List.mem_map] at hpr
  obtain ⟨g, hg, rfl⟩ := hpr
  rw [gifOutcome_id hrec]
  exact List.mem_map_of_mem _ hg

/-! ## Claims -/

/-- C1 (counterexample): a fetch that raises (here: a timeout) is classified
`Removed` by `process_gif`, not `Failed` — contradicting the claim that every
non-tombstone fetch failure yields `Failed(NetworkError)` and that `Removed`
and `Failed` are never conflated. -/
theorem c1_conflation_counterexample :
    process_gif (FetchResult.error "timed out") (fun _ => some "desc")
        ⟨"http://a/b.gif", "cap"⟩ = ProcessResult.removed
    ∧ ProcessResult.removed ≠ ProcessResult.failed := by
  exact ⟨rfl, by decide⟩

/-- C1 (amended): in the TGIF engine a tombstone fetch yields `Removed`, but
so does every other fetch failure (`download_gif` returns the same `None` for
both); `Failed` is reserved for post-download errors (inference or parse
failure).  The aggregation step bumps exactly the `removed` counter for
`Removed` (writing no record) and exactly the `failed` counter for
`Failed`. -/
theorem c1_removed_amended :
    (∀ (body : Bytes) (url : String) (d : Bytes → Option String) (g : Gif),
        strContains url tombstoneMarker = true →
        process_gif (.ok body url) d g = ProcessResult.removed)
    ∧ (∀ (msg : String) (d : Bytes → Option String) (g : Gif),
        process_gif (.error msg) d g = ProcessResult.removed)
    ∧ (∀ (body : Bytes) (url : String) (d : Bytes → Option String) (g : Gif),
        strContains url tombstoneMarker = false → d body = none →
        process_gif (.ok body url) d g = ProcessResult.failed)
    ∧ (∀ st : IOState, stepGifs st ProcessResult.removed
        = { st with removed := st.removed + 1 })
    ∧ (∀ st : IOState, stepGifs st ProcessResult.failed
        = { st with failed := st.failed + 1 }) := by
  refine ⟨?_, ?_, ?_, ?_, ?_⟩
  · intro body url d g h
    simp [process_gif, download_gif, h]
  · intro msg d g
    simp [process_gif, download_gif]
  · intro body url d g h hd
    simp [process_gif, download_gif, h, hd]
  · intro st
    rfl
  · intro st
    rfl

/-- C1 (witness for the amended claim). -/
theorem c1_removed_amended_witness :
    process_gif (.ok [0] tombstoneMarker) (fun _ => some "d") ⟨"u", "c"⟩
        = ProcessResult.removed
    ∧ process_gif (.ok [0] "http://ok/x.gif") (fun _ => none) ⟨"u", "c"⟩
        = ProcessResult.failed := by
  constructor
  · exact c1_removed_amended.1 [0] tombstoneMarker _ _ (by decide)
  · exact c1_removed_amended.2.2.1 [0] "http://ok/x.gif" _ _ (by decide) rfl

/-- C3 (counterexample): in the manifest engine (`describe_item`),
unparsable text on the first attempt yields failure even though the service
would return valid structured text on a second attempt — no retry is made,
contradicting the claim for items of that engine. -/
theorem c3_no_retry_counterexample :
    describe_item true (some [[0]])
        (fun i => if i = 0 then .unparsable "not json" else .parsed "ok") = none
    ∧ (fun i => if i = 0 then AttemptResult.unparsable "not json"
          else AttemptResult.parsed "ok") 1 = AttemptResult.parsed "ok" := by
  exact ⟨rfl, rfl⟩

/-- C3 (amended): the bounded retry exists only in the TGIF engine
(`describe_gif_from_data`, default 1 retry = 2 attempts): unparsable then
valid yields success, two unparsable attempts yield failure with a
300-character prefix of the raw response logged.  The manifest engine's
`describe_item` makes exactly one attempt — its result depends only on the
first, and a parse failure there is immediately a failure. -/
theorem c3_retry_amended :
    (∀ (oracle : Nat → AttemptResult) (d raw : String),
        oracle 0 = .unparsable raw → oracle 1 = .parsed d →
        (describe_gif_from_data oracle 1).1 = some d)
    ∧ (∀ (oracle : Nat → AttemptResult) (r0 r1 : String),
        oracle 0 = .unparsable r0 → oracle 1 = .unparsable r1 →
        (describe_gif_from_data oracle 1).1 = none
        ∧ ("Raw response: " ++ r1.take 300) ∈ (describe_gif_from_data oracle 1).2)
    ∧ (∀ (oracle : Nat → AttemptResult) (raw : String),
        oracle 0 = .unparsable raw →
        describe_item true (some [[0]]) oracle = none)
    ∧ (∀ (oracle oracle2 : Nat → AttemptResult) (fe : Bool)
        (fr : Option (List Bytes)),
        oracle 0 = oracle2 0 →
        describe_item fe fr oracle = describe_item fe fr oracle2) := by
  refine ⟨?_, ?_, ?_, ?_⟩
  · intro oracle d raw h0 h1
    simp [describe_gif_from_data, attemptFrom, h0, h1]
  · intro oracle r0 r1 h0 h1
    constructor
    · simp [describe_gif_from_data, attemptFrom, h0, h1]
    · simp [describe_gif_from_data, attemptFrom, h0, h1]
  · intro oracle raw h0
    simp [describe_item, h0]
  · intro oracle oracle2 fe fr h
    unfold describe_item
    rw [h]

/-- C3 (witness for the amended claim). -/
theorem c3_retry_amended_witness :
    (describe_gif_from_data
        (fun i => if i = 0 then .unparsable "x" else .parsed "ok") 1).1 = some "ok"
    ∧ (describe_gif_from_data (fun _ => .unparsable "zz") 1).1 = none
    ∧ ("Raw response: " ++ ("zz".take 300))
        ∈ (describe_gif_from_data (fun _ => .unparsable "zz") 1).2
    ∧ describe_item true (some [[0]]) (fun _ => .unparsable "zz") = none := by
  refine ⟨?_, ?_, ?_, ?_⟩
  · exact c3_retry_amended.1 _ "ok" "x" rfl rfl
  · exact (c3_retry_amended.2.1 _ "zz" "zz" rfl rfl).1
  · exact (c3_retry_amended.2.1 _ "zz" "zz" rfl rfl).2
  · exact c3_retry_amended.2.2.1 _ "zz" rfl

/-- C4 (counterexample): in the TGIF engine, a single malformed line in the
existing output makes the resume scan raise `json.JSONDecodeError`, aborting
the run before anything is scheduled — contradicting the claim that malformed
lines are skipped without aborting. -/
theorem c4_malformed_aborts_counterexample :
    gifs_schedule [⟨"u", "c"⟩] true (some [Line.badJson])
      = Except.error "JSONDecodeError" := rfl

/-- C4 (amended): the startup scan runs to completion before any scheduling
in both engines; in the manifest engine every well-formed record's identity
is collected and malformed or identity-missing lines are skipped (the scan is
total); in the TGIF engine a clean scan feeds the full skip-set to the filter,
but any malformed line raises and aborts the run. -/
theorem c4_scan_amended :
    (∀ (lines : List Line) (i : String),
        Line.record i ∈ lines → i ∈ existing_ids_scan lines)
    ∧ (∀ (lines : List Line) (i : String),
        i ∈ existing_ids_scan lines → Line.record i ∈ lines)
    ∧ (∀ (gifs : List Gif) (lines : List Line) (ids : List String),
        processed_urls_scan lines = .ok ids →
        gifs_schedule gifs true (some lines) = .ok (to_process gifs ids))
    ∧ (∀ (gifs : List Gif) (lines : List Line),
        Line.badJson ∈ lines →
        ∃ e, gifs_schedule gifs true (some lines) = .error e) := by
  refine ⟨?_, ?_, ?_, ?_⟩
  · intro lines i h
    exact mem_existing_ids_scan.2 h
  · intro lines i h
    exact mem_existing_ids_scan.1 h
  · intro gifs lines ids h
    simp [gifs_schedule, h, Except.map]
  · intro gifs lines h
    obtain ⟨e, he⟩ := processed_urls_scan_error h
    exact ⟨e, by simp [gifs_schedule, he, Except.map]⟩

/-- C4 (witness for the amended claim). -/
theorem c4_scan_amended_witness :
    "a" ∈ existing_ids_scan [Line.badJson, Line.record "a", Line.noId]
    ∧ gifs_schedule [⟨"a", "c"⟩, ⟨"b", "c"⟩] true (some [Line.record "a"])
        = Except.ok [⟨"b", "c"⟩]
    ∧ ∃ e, gifs_schedule [⟨"a", "c"⟩] true
        (some [Line.record "a", Line.badJson]) = Except.error e := by
  refine ⟨?_, ?_, ?_⟩
  · exact c4_scan_amended.1 _ "a" (by decide)
  · exact (c4_scan_amended.2.2.1 [⟨"a", "c"⟩, ⟨"b", "c"⟩] [Line.record "a"]
      ["a"] rfl).trans (congrArg Except.ok (by decide))
  · exact c4_scan_amended.2.2.2 _ _ (by decide)

/-- C6 (code bug): when duration resolution fails entirely (no `duration`
field, `nb_frames = 0`), `extract_frames_mp4` falls back to a nominal
1-second duration but then computes the full set of `NUM_FRAMES = 5`
timestamps `[0, 0.25, 0.5, 0.75, 0.99]` across it — not the single frame the
claim (and the code's own comment above the fallback) describes. -/
theorem c6_fallback_bug :
    resolveDuration ⟨none, 0, 30, 1⟩ = 1
    ∧ mp4_timestamps (resolveDuration ⟨none, 0, 30, 1⟩) 5
        = [0, 1/4, 1/2, 3/4, 99/100]
    ∧ (mp4_timestamps (resolveDuration ⟨none, 0, 30, 1⟩) 5).length = 5 := by
  refine ⟨?_, ?_, ?_⟩
  · norm_num [resolveDuration]
  · norm_num [mp4_timestamps, resolveDuration, List.range_succ]
  · norm_num [mp4_timestamps, resolveDuration, List.range_succ]

/-- C9: with force off, the manifest engine opens the output sink in append
mode exactly when the scan of the existing file recovered at least one valid
record (a parsable line carrying an identity); a file of only malformed lines
is truncated; force mode always truncates. -/
theorem c9_output_mode (lines : List Line) :
    output_mode (existing_ids (some lines) true) true = OMode.truncate
    ∧ (output_mode (existing_ids (some lines) false) false = OMode.append
        ↔ ∃ i, Line.record i ∈ lines)
    ∧ output_mode (existing_ids (some [Line.badJson, Line.noId]) false) false
        = OMode.truncate := by
  have hmode : ∀ e : List String,
      output_mode e false = OMode.append ↔ e ≠ [] := by
    intro e
    cases e <;> simp [output_mode]
  refine ⟨rfl, ?_, by decide⟩
  have he : existing_ids (some lines) false = existing_ids_scan lines := rfl
  rw [he, hmode]
  constructor
  · intro hne
    obtain ⟨i, hi⟩ := List.exists_mem_of_ne_nil _ hne
    exact ⟨i, mem_existing_ids_scan.1 hi⟩
  · rintro ⟨i, hi⟩ hnil
    have hm := mem_existing_ids_scan.2 hi
    rw [hnil] at hm
    simp at hm

/-- C9 (witness): a single well-formed record line yields append mode. -/
theorem c9_output_mode_witness :
    output_mode (existing_ids (some [Line.record "a"]) false) false
      = OMode.append :=
  (c9_output_mode [Line.record "a"]).2.1.mpr ⟨"a", by decide⟩

/-- C10: the per-source limit is applied before the already-described filter:
with three downloaded, undescribed items, limit 2 and two of the first items
already in the output, nothing at all is scheduled even though a third
undescribed item remains; in general at most `limit` items are ever
scheduled. -/
theorem c10_limit_before_filter :
    2 < (items_needing_description
        [⟨"a", true, false⟩, ⟨"b", true, false⟩, ⟨"c", true, false⟩] false).length
    ∧ scheduled_items [⟨"a", true, false⟩, ⟨"b", true, false⟩, ⟨"c", true, false⟩]
        false 2 ["a", "b"] = []
    ∧ (∀ (items : List SItem) (force : Bool) (limit : Nat) (existing : List String),
        limit ≠ 0 → (scheduled_items items force limit existing).length ≤ limit) := by
  refine ⟨by decide, by decide, ?_⟩
  intro items force limit existing hl
  unfold scheduled_items applyLimit
  rw [if_neg hl]
  exact le_trans (List.length_filter_le _ _) (List.length_take_le _ _)

/-- C10 (witness: the general limit bound at a concrete input). -/
theorem c10_limit_before_filter_witness :
    (scheduled_items [⟨"a", true, false⟩] false 1 []).length ≤ 1 :=
  c10_limit_before_filter.2.2 _ false 1 [] (by decide)

/-- C2 (counterexample): for `F = 2` frames and target count `K = 1` the
formula branch divides by zero (`ZeroDivisionError` in Python), so no index
sequence is produced at all — contradicting the claim, which for every
`K ≥ 1` with `F ≥ K` promises a length-`K` sequence whose first element is
`0` and whose last is `F - 1` (itself impossible for `K = 1 < F`). -/
theorem c2_div_zero_counterexample :
    extract_frames_indices 2 1 = none
    ∧ ∀ L : List ℤ, extract_frames_indices 2 1 = some L → False := by
  refine ⟨rfl, ?_⟩
  intro L h
  rw [show extract_frames_indices 2 1 = none from rfl] at h
  exact Option.noConfusion h

/-- C2 (amended): for `F ≤ K` the sampled sequence is exactly `0..F-1`; for
`2 ≤ K ≤ F` it is `round(i·(F-1)/(K-1))` for `i = 0..K-1` (round half to
even), non-decreasing, of length exactly `K`, with first element `0` and last
element `F-1`; for `K = 1 < F` the division by zero makes extraction raise
instead.  `F = 12, K = 5` gives `[0, 3, 6, 8, 11]`. -/
theorem c2_sampling_amended (F K : Nat) :
    (F ≤ K → extract_frames_indices F K
        = some ((List.range F).map Int.ofNat))
    ∧ (2 ≤ K → K ≤ F → ∃ L, extract_frames_indices F K = some L
        ∧ L = (List.range K).map (sampleIdx F K)
        ∧ L.length = K ∧ L.Sorted (· ≤ ·)
        ∧ L.get? 0 = some 0 ∧ L.get? (K - 1) = some ((F : ℤ) - 1))
    ∧ (K = 1 → 2 ≤ F → extract_frames_indices F K = none)
    ∧ extract_frames_indices 12 5 = some [0, 3, 6, 8, 11] := by
  refine ⟨?_, ?_, ?_, ?_⟩
  · intro h
    simp [extract_frames_indices, h]
  · intro hK hKF
    obtain ⟨h1, h2, h3, h4⟩ := sampled_formula_props hK hKF
    by_cases hFK : F ≤ K
    · have hEq : F = K := le_antisymm hFK hKF
      subst hEq
      have hKne : ((F : ℚ) - 1) ≠ 0 := by
        have h2F : (2 : ℚ) ≤ (F : ℚ) := by exact_mod_cast hK
        intro hz
        nlinarith
      have hmaps : (List.range F).map Int.ofNat
          = (List.range F).map (sampleIdx F F) := by
        apply List.map_congr_left
        intro i hi
        unfold sampleIdx
        rw [mul_div_cancel_right₀ _ hKne]
        exact (pythonRound_natCast i).symm
      have he : extract_frames_indices F F
          = some ((List.range F).map (sampleIdx F F)) := by
        unfold extract_frames_indices
        rw [if_pos (le_refl F), hmaps]
      exact ⟨_, he, rfl, h1, h2, h3, h4⟩
    · have hne1 : K ≠ 1 := by omega
      have he : extract_frames_indices F K
          = some ((List.range K).map (sampleIdx F K)) := by
        unfold extract_frames_indices
        rw [if_neg hFK, if_neg hne1]
      exact ⟨_, he, rfl, h1, h2, h3, h4⟩
  · intro h1 h2
    subst h1
    unfold extract_frames_indices
    rw [if_neg (by omega), if_pos rfl]
  · norm_num [extract_frames_indices, List.range_succ, sampleIdx, pythonRound]

/-- C2 (witness for the amended claim): both branches and the raising case
at concrete inputs. -/
theorem c2_sampling_amended_witness :
    extract_frames_indices 3 5 = some ((List.range 3).map Int.ofNat)
    ∧ (∃ L, extract_frames_indices 12 5 = some L
        ∧ L = (List.range 5).map (sampleIdx 12 5)
        ∧ L.length = 5 ∧ L.Sorted (· ≤ ·)
        ∧ L.get? 0 = some 0 ∧ L.get? (5 - 1) = some ((12 : ℤ) - 1))
    ∧ extract_frames_indices 2 1 = none := by
  refine ⟨?_, ?_, ?_⟩
  · exact (c2_sampling_amended 3 5).1 (by norm_num)
  · exact (c2_sampling_amended 12 5).2.1 (by norm_num) (by norm_num)
  · exact (c2_sampling_amended 2 1).2.2.1 rfl (by norm_num)

/-- C5 (counterexample): when the input sequence itself contains two items
with the same identity (the same URL on two TSV rows), a first resumed run
writes that identity twice, so the combined output of two resumed runs holds
duplicate identities — the claim's universally quantified no-duplicates
conclusion fails. -/
theorem c5_duplicate_input_counterexample :
    ¬ (((runGifs [⟨"u", "a"⟩, ⟨"u", "b"⟩] [] (fun _ => .ok [] "x")
            (fun _ _ => some "D")).flushed
        ++ (runGifs [⟨"u", "a"⟩, ⟨"u", "b"⟩]
            ((runGifs [⟨"u", "a"⟩, ⟨"u", "b"⟩] [] (fun _ => .ok [] "x")
                (fun _ _ => some "D")).flushed.map Rec.id)
            (fun _ => .ok [] "x") (fun _ _ => some "D")).flushed).map Rec.id).Nodup := by
  decide

/-- C5 (amended): every item whose identity is in the skip-set is excluded
before scheduling (no job, no counter, no output record), and — provided the
input's identities are pairwise distinct — running twice with resume enabled
(the second skip-set being the identities recovered from the first run's
output) produces no duplicate identities in the combined output. -/
theorem c5_skipset_amended :
    (∀ (gifs : List Gif) (skip : List String) (g : Gif),
        g.url ∈ skip → g ∉ to_process gifs skip)
    ∧ (∀ (gifs : List Gif) (skip : List String) (fetch : Gif → FetchResult)
        (describe : Gif → Bytes → Option String),
        (runGifs gifs skip fetch describe).success
          + (runGifs gifs skip fetch describe).failed
          + (runGifs gifs skip fetch describe).removed
          = (to_process gifs skip).length)
    ∧ (∀ (gifs : List Gif) (skip : List String) (fetch : Gif → FetchResult)
        (describe : Gif → Bytes → Option String) (r : Rec),
        r ∈ (runGifs gifs skip fetch describe).flushed →
        r.id ∈ (to_process gifs skip).map Gif.url)
    ∧ (∀ (gifs : List Gif) (f1 f2 : Gif → FetchResult)
        (d1 d2 : Gif → Bytes → Option String),
        (gifs.map Gif.url).Nodup →
        (((runGifs gifs [] f1 d1).flushed
            ++ (runGifs gifs ((runGifs gifs [] f1 d1).flushed.map Rec.id) f2 d2).flushed).map
              Rec.id).Nodup) := by
  refine ⟨?_, ?_, ?_, ?_⟩
  · intro gifs skip g h hmem
    rw [mem_to_process] at hmem
    exact hmem.2 h
  · intro gifs skip fetch describe
    unfold runGifs runAggGifs
    rw [foldl_stepGifs_spec _ _ rfl]
    show 0 + _ + (0 + _) + (0 + _) = _
    simp only [Nat.zero_add]
    rw [countP_parts, List.length_map]
  · intro gifs skip fetch describe r hmem
    exact runGifs_flushed_ids hmem
  · intro gifs f1 f2 d1 d2 hnodup
    have hids : ∀ (skip : List String) (f : Gif → FetchResult)
        (d : Gif → Bytes → Option String),
        ((runGifs gifs skip f d).flushed.map Rec.id).Sublist
          ((to_process gifs skip).map Gif.url) := by
      intro skip f d
      rw [runGifs_flushed]
      exact sink_ids_sublist _ _ _
    have hsub : ∀ skip : List String,
        ((to_process gifs skip).map Gif.url).Sublist (gifs.map Gif.url) :=
      fun skip => List.Sublist.map _ (List.filter_sublist _)
    have hnd : ∀ (skip : List String) (f : Gif → FetchResult)
        (d : Gif → Bytes → Option String),
        ((runGifs gifs skip f d).flushed.map Rec.id).Nodup :=
      fun skip f d => List.Nodup.sublist ((hids skip f d).trans (hsub skip)) hnodup
    rw [List.map_append, List.nodup_append]
    refine ⟨hnd [] f1 d1, hnd _ f2 d2, ?_⟩
    intro x hx1 hx2
    rw [List.mem_map] at hx2
    obtain ⟨r, hr, rfl⟩ := hx2
    have hx3 := runGifs_flushed_ids hr
    rw [List.mem_map] at hx3
    obtain ⟨g, hg, hgu⟩ := hx3
    rw [mem_to_process] at hg
    exact hg.2 (hgu ▸ hx1)

/-- C5 (witness for the amended claim): a two-item input with distinct
identities, all jobs succeeding, yields duplicate-free combined output. -/
theorem c5_skipset_amended_witness :
    ⟨"u1", "a"⟩ ∉ to_process [⟨"u1", "a"⟩, ⟨"u2", "b"⟩] ["u1"]
    ∧ (((runGifs [⟨"u1", "a"⟩, ⟨"u2", "b"⟩] [] (fun _ => .ok [] "x")
          (fun _ _ => some "D")).flushed
        ++ (runGifs [⟨"u1", "a"⟩, ⟨"u2", "b"⟩]
            ((runGifs [⟨"u1", "a"⟩, ⟨"u2", "b"⟩] [] (fun _ => .ok [] "x")
                (fun _ _ => some "D")).flushed.map Rec.id)
            (fun _ => .ok [] "x") (fun _ _ => some "D")).flushed).map Rec.id).Nodup := by
  constructor
  · exact c5_skipset_amended.1 [⟨"u1", "a"⟩, ⟨"u2", "b"⟩] ["u1"] ⟨"u1", "a"⟩ (by decide)
  · exact c5_skipset_amended.2.2.2 [⟨"u1", "a"⟩, ⟨"u2", "b"⟩] _ _ _ _ (by decide)

/-- C7: in both engines the record of every success is written and flushed
before the success counter is incremented, so at every micro-step of the
aggregation trace (hence at every observation point, including the final
summary) the success counter never exceeds the number of records durably
flushed to the sink; at the end of the run the two are equal. -/
theorem c7_write_before_count :
    (∀ (results : List ProcessResult),
        ∀ s ∈ statesOf initState (fullTrace (results.map opsForGifs)),
          s.success ≤ s.flushed.length)
    ∧ (∀ (results : List SResult),
        ∀ s ∈ statesOf initState (fullTrace (results.map opsForSources)),
          s.success ≤ s.flushed.length)
    ∧ (∀ (results : List ProcessResult),
        (runAggGifs results).success = (runAggGifs results).flushed.length)
    ∧ (∀ (results : List SResult),
        (runAggSources results).success = (runAggSources results).flushed.length) := by
  refine ⟨?_, ?_, ?_, ?_⟩
  · intro results
    refine safe_fullTrace _ ?_ initState rfl rfl
    intro sec hsec
    rw [List.mem_map] at hsec
    obtain ⟨r, -, rfl⟩ := hsec
    exact safe_opsForGifs r
  · intro results
    refine safe_fullTrace _ ?_ initState rfl rfl
    intro sec hsec
    rw [List.mem_map] at hsec
    obtain ⟨r, -, rfl⟩ := hsec
    exact safe_opsForSources r
  · intro results
    unfold runAggGifs
    rw [foldl_stepGifs_spec _ _ rfl]
    show 0 + _ = ([] ++ _).length
    rw [Nat.zero_add, List.nil_append, countP_isSuccess_eq]
  · intro results
    unfold runAggSources
    rw [foldl_stepSources_spec _ _ rfl]
    show 0 + _ = ([] ++ _).length
    rw [Nat.zero_add, List.nil_append, countP_isSSuccess_eq]

/-- C7 (witness): the inequality at the final state of a one-success run. -/
theorem c7_write_before_count_witness :
    (runAggGifs [.success ⟨"u", "p"⟩]).success
      ≤ (runAggGifs [.success ⟨"u", "p"⟩]).flushed.length :=
  c7_write_before_count.1 [.success ⟨"u", "p"⟩] _ (by decide)

/-- C8: job outcomes are produced by value and consumed one critical section
per completed job, so the final shared state is fully determined by the
multiset of outcomes: the three counters count the outcome kinds and sum to
the number of jobs, the sink holds exactly the success records (and, in the
manifest engine, the `described` flags are set for exactly the written
identities), and any two completion interleavings of the same jobs yield the
same counters and the same sink contents up to order — no update is lost or
duplicated. -/
theorem c8_single_aggregation (order : List ProcessResult) :
    (runAggGifs order).success = order.countP isSuccess
    ∧ (runAggGifs order).failed = order.countP isFailed
    ∧ (runAggGifs order).removed = order.countP isRemoved
    ∧ (runAggGifs order).success + (runAggGifs order).failed
        + (runAggGifs order).removed = order.length
    ∧ (runAggGifs order).flushed = order.filterMap recOf
    ∧ (∀ sorder : List SResult,
        (runAggSources sorder).flushed = sorder.filterMap recOfS
        ∧ (runAggSources sorder).described = (sorder.filterMap recOfS).map Rec.id
        ∧ (runAggSources sorder).success + (runAggSources sorder).failed
            = sorder.length)
    ∧ (∀ order2 : List ProcessResult, order.Perm order2 →
        (runAggGifs order2).success = (runAggGifs order).success
        ∧ (runAggGifs order2).failed = (runAggGifs order).failed
        ∧ (runAggGifs order2).removed = (runAggGifs order).removed
        ∧ (runAggGifs order2).flushed.Perm (runAggGifs order).flushed) := by
  have hspec : ∀ l : List ProcessResult,
      runAggGifs l =
        { buffered := [], flushed := l.filterMap recOf,
          success := l.countP isSuccess, failed := l.countP isFailed,
          removed := l.countP isRemoved, described := [] } := by
    intro l
    unfold runAggGifs
    rw [foldl_stepGifs_spec _ _ rfl]
    simp [initState]
  have hspecS : ∀ l : List SResult,
      runAggSources l =
        { buffered := [], flushed := l.filterMap recOfS,
          success := l.countP isSSuccess,
          failed := l.countP (fun r => !isSSuccess r),
          removed := 0, described := (l.filterMap recOfS).map Rec.id } := by
    intro l
    unfold runAggSources
    rw [foldl_stepSources_spec _ _ rfl]
    simp [initState]
  refine ⟨by rw [hspec], by rw [hspec], by rw [hspec], ?_, by rw [hspec], ?_, ?_⟩
  · rw [hspec]
    exact countP_parts order
  · intro sorder
    refine ⟨by rw [hspecS], by rw [hspecS], ?_⟩
    rw [hspecS]
    exact countP_sparts sorder
  · intro order2 hperm
    rw [hspec order, hspec order2]
    exact ⟨hperm.symm.countP_eq _, hperm.symm.countP_eq _, hperm.symm.countP_eq _,
      List.Perm.filterMap _ hperm.symm⟩

/-- C8 (witness): two completion orders of the same two jobs agree. -/
theorem c8_single_aggregation_witness :
    (runAggGifs [ProcessResult.removed, .success ⟨"u", "p"⟩]).success
        = (runAggGifs [.success ⟨"u", "p"⟩, ProcessResult.removed]).success
    ∧ (runAggGifs [ProcessResult.removed, .success ⟨"u", "p"⟩]).flushed.Perm
        (runAggGifs [.success ⟨"u", "p"⟩, ProcessResult.removed]).flushed := by
  have h := (c8_single_aggregation [.success ⟨"u", "p"⟩, ProcessResult.removed]).2.2.2.2.2.2
      [ProcessResult.removed, .success ⟨"u", "p"⟩] (List.Perm.swap _ _ _)
  exact ⟨h.1, h.2.2.2⟩

end GifPicker
